import Mathlib

set_option maxRecDepth 4000

/-!
Shallow embedding of the Whirlwind firmware sources:

* `Ino` — `src/whirlwind_kb_only_refactored/whirlwind_kb_only_refactored.ino`,
  the refactored keyboard-emulation variant (debounce window 10 ms, gate `>=`,
  deferred shift-tap emission via the global `startBlock`).
* `P0` — `src/unnamed/part_000`, the original keyboard-emulation variant
  (debounce window 40 ms, gate `>`, code emitted only when it exceeds 32,
  the shift input is `inputs[0]` and emits its own key directly).
* `P2` — `src/unnamed/part_002`, the dual-gamepad variant (debounce window
  8 ms, gate `>`, two 13-bit packed reports).

Machine `uint32_t`/`unsigned long` arithmetic is modelled on `Nat` with an
explicit wrap-around subtraction `sub32`.  `HIGH`/`LOW` pin levels are `Bool`
(`HIGH = true`).  Key codes are plain `Nat` values taken from the Arduino
`Keyboard.h` collaborator library.
-/

/-- Numeric value of `2 ^ 32`, the modulus of `uint32_t` arithmetic. -/
def U32 : Nat := 4294967296

/-- Wrap-around subtraction of two `uint32_t` values, as C computes `a - b`. -/
def sub32 (a b : Nat) : Nat := (a % U32 + U32 - b % U32) % U32

theorem sub32_eq_sub {a b : Nat} (h1 : b ≤ a) (h2 : a < U32) : sub32 a b = a - b := by
  simp only [sub32, U32] at h2 ⊢
  omega

/-- Electrical `HIGH` level (released, with pull-up wiring). -/
def HIGH : Bool := true

/-- Electrical `LOW` level (pressed, with pull-up wiring). -/
def LOW : Bool := false

/-- One outbound call to the external Keyboard HID collaborator. -/
inductive KeyEvent where
  | press : Nat → KeyEvent
  | release : Nat → KeyEvent
deriving DecidableEq

/-- Whether an outbound call is a key-down (press) action. -/
def KeyEvent.isPress : KeyEvent → Bool
  | .press _ => true
  | .release _ => false

/-- Key codes of the external Arduino `Keyboard.h` collaborator library. -/
def KEY_ESC : Nat := 177
def KEY_TAB : Nat := 179
def KEY_RETURN : Nat := 176
def KEY_UP_ARROW : Nat := 218
def KEY_DOWN_ARROW : Nat := 217
def KEY_LEFT_ARROW : Nat := 216
def KEY_RIGHT_ARROW : Nat := 215
def KEY_LEFT_CTRL : Nat := 128
def KEY_LEFT_SHIFT : Nat := 129
def KEY_LEFT_ALT : Nat := 130
def KEY_F2 : Nat := 195
def KEY_F11 : Nat := 204
def KEY_SPACE : Nat := 32

namespace Ino

/-- `#define DEBOUNCE_TIME 10`. -/
def DEBOUNCE_TIME : Nat := 10

/-- `struct digitalInput` of the refactored variant. -/
structure digitalInput where
  pin : Nat
  debTimestamp : Nat
  state : Bool
  btn : Nat
  btn_shift : Nat
deriving DecidableEq

/-- The static `inputs[SW_INPUTS]` table of the refactored variant. -/
def inputs : List digitalInput := [
  ⟨6, 0, HIGH, 49, 49⟩,                              -- P1 START - SHIFT BUTTON ('1','1')
  ⟨7, 0, HIGH, 50, KEY_ESC⟩,                         -- P2 START ('2'), ESC if shifted
  ⟨8, 0, HIGH, KEY_UP_ARROW, KEY_UP_ARROW⟩,          -- P1 UP
  ⟨10, 0, HIGH, KEY_DOWN_ARROW, KEY_DOWN_ARROW⟩,     -- P1 DOWN
  ⟨16, 0, HIGH, KEY_LEFT_ARROW, KEY_LEFT_ARROW⟩,     -- P1 LEFT
  ⟨14, 0, HIGH, KEY_RIGHT_ARROW, KEY_RIGHT_ARROW⟩,   -- P1 RIGHT
  ⟨12, 0, HIGH, KEY_LEFT_CTRL, KEY_TAB⟩,             -- P1 B1, TAB if shifted
  ⟨20, 0, HIGH, KEY_LEFT_ALT, KEY_RETURN⟩,           -- P1 B2, ENTER if shifted
  ⟨18, 0, HIGH, KEY_SPACE, KEY_F11⟩,                 -- P1 B3, F11 if shifted
  ⟨22, 0, HIGH, KEY_LEFT_SHIFT, KEY_LEFT_SHIFT⟩,     -- P1 B4
  ⟨24, 0, HIGH, 122, 122⟩,                           -- P1 B5 ('z')
  ⟨27, 0, HIGH, 120, 120⟩,                           -- P1 B6 ('x')
  ⟨9, 0, HIGH, 114, 114⟩,                            -- P2 UP ('r')
  ⟨11, 0, HIGH, 102, 102⟩,                           -- P2 DOWN ('f')
  ⟨17, 0, HIGH, 100, 100⟩,                           -- P2 LEFT ('d')
  ⟨15, 0, HIGH, 103, 103⟩,                           -- P2 RIGHT ('g')
  ⟨13, 0, HIGH, 97, 97⟩,                             -- P2 B1 ('a')
  ⟨21, 0, HIGH, 115, 115⟩,                           -- P2 B2 ('s')
  ⟨19, 0, HIGH, 113, 113⟩,                           -- P2 B3 ('q')
  ⟨23, 0, HIGH, 119, 119⟩,                           -- P2 B4 ('w')
  ⟨26, 0, HIGH, 101, 101⟩,                           -- P2 B5 ('e')
  ⟨28, 0, HIGH, 121, 121⟩,                           -- P2 B6 ('y')
  ⟨4, 0, HIGH, 53, 54⟩,                              -- P1 COIN ('5','6')
  ⟨5, 0, HIGH, 54, 54⟩,                              -- P2 COIN ('6','6')
  ⟨3, 0, HIGH, KEY_F2, KEY_F2⟩,                      -- SERVICE SW
  ⟨2, 0, HIGH, 57, 57⟩]                              -- TEST SW ('9')

/-- The debounce gate of `handleButtons` / `handleShiftButton`:
`inputs[i].state != buttonState && millisNow - inputs[i].debTimestamp >= DEBOUNCE_TIME`. -/
def accept (inp : digitalInput) (raw : Bool) (now : Nat) : Prop :=
  inp.state ≠ raw ∧ DEBOUNCE_TIME ≤ sub32 now inp.debTimestamp

instance (inp : digitalInput) (raw : Bool) (now : Nat) : Decidable (accept inp raw now) := by
  unfold accept; infer_instance

/-- Body of the `for` loop of `handleButtons` for one non-shift input.
`shiftState` is `inputs[0].state`, `startBlock` the global flag, `raw` the
sampled level of this input's pin and `now` the value of `millis()`.
Returns the updated input record, the updated `startBlock`, and the
`Keyboard` calls issued. -/
def handleButtonsBody (shiftState startBlock : Bool) (inp : digitalInput)
    (raw : Bool) (now : Nat) : digitalInput × Bool × List KeyEvent :=
  if accept inp raw now then
    let inp2 : digitalInput := { inp with state := raw, debTimestamp := now }
    let evs1 : List KeyEvent :=
      if shiftState = HIGH ∧ raw = LOW then [KeyEvent.press inp.btn] else []
    let evs2 : List KeyEvent :=
      if shiftState = HIGH ∧ raw = HIGH then [KeyEvent.release inp.btn] else []
    let sb2 : Bool := if shiftState = LOW ∧ raw = LOW then true else startBlock
    let evs3 : List KeyEvent :=
      if shiftState = LOW ∧ raw = LOW then [KeyEvent.press inp.btn_shift] else []
    let evs4 : List KeyEvent :=
      if shiftState = LOW ∧ raw = HIGH then [KeyEvent.release inp.btn_shift] else []
    (inp2, sb2, evs1 ++ evs2 ++ evs3 ++ evs4)
  else (inp, startBlock, [])

/-- `handleShiftButton`, acting on `inputs[0]`.  Inside the accepted branch the
source reads `shiftState = inputs[0].state` after the update, so the branch
conditions test the new level `raw`. -/
def handleShiftButton (startBlock : Bool) (inp0 : digitalInput)
    (raw : Bool) (now : Nat) : digitalInput × Bool × List KeyEvent :=
  if accept inp0 raw now then
    let inp2 : digitalInput := { inp0 with state := raw, debTimestamp := now }
    let evs : List KeyEvent :=
      if startBlock = false ∧ raw = HIGH then
        [KeyEvent.press inp0.btn, KeyEvent.release inp0.btn]
      else []
    let sb2 : Bool := if startBlock = true ∧ raw = HIGH then false else startBlock
    (inp2, sb2, evs)
  else (inp0, startBlock, [])

/-- The initialization loop of `setup`:
`inputs[i].state = digitalRead(inputs[i].pin)` for every input. -/
def setup (readPin : Nat → Bool) : List digitalInput :=
  inputs.map fun e => { e with state := readPin e.pin }

/-- Feeding one input a sequence of `(raw sample, millis)` pairs through the
`handleButtons` body, counting accepted (confirmed) transitions. -/
def runInput (shiftState : Bool) : Bool → digitalInput → List (Bool × Nat) →
    digitalInput × Bool × Nat
  | sb, inp, [] => (inp, sb, 0)
  | sb, inp, (raw, t) :: rest =>
    let r := handleButtonsBody shiftState sb inp raw t
    let r2 := runInput shiftState r.2.1 r.1 rest
    (r2.1, r2.2.1, (if accept inp raw t then 1 else 0) + r2.2.2)

/-- `#define PULSE_COUNT 100`. -/
def PULSE_COUNT : Nat := 100

/-- The accumulation loop of `freqBlock`: successive `pulseIn` results are
summed; a zero measurement sets `hasNoPulse` and breaks out immediately. -/
def freqAccum : List Nat → Nat → Nat × Bool
  | [], totalDuration => (totalDuration, false)
  | d :: rest, totalDuration =>
    if d = 0 then (totalDuration + d, true) else freqAccum rest (totalDuration + d)

/-- The band test `frequency >= 12.0 && frequency <= 18.0` with
`frequency = 100000.0 / totalDuration` (kHz), computed exactly over `ℚ`. -/
def freqOk (totalDuration : Nat) : Prop :=
  12 ≤ (100000 : ℚ) / totalDuration ∧ (100000 : ℚ) / totalDuration ≤ 18

instance (t : Nat) : Decidable (freqOk t) := by
  unfold freqOk; infer_instance

/-- `freqBlock` of the refactored variant over one accumulation cycle, taking
the successive `pulseIn(HSyncPin, HIGH)` measurements and returning the levels
written to `(ledPin, disablePin)`. -/
def freqBlock (pulses : List Nat) : Bool × Bool :=
  let r := freqAccum pulses 0
  if r.2 = false then
    if freqOk r.1 then (HIGH, LOW) else (LOW, HIGH)
  else (LOW, HIGH)

end Ino

namespace P0

/-- `#define debTime 40`. -/
def debTime : Nat := 40

/-- `struct digitalInput` of `part_000` (field order `pin, state, dbTime`). -/
structure digitalInput where
  pin : Nat
  state : Bool
  dbTime : Nat
  btn : Nat
  btn_shift : Nat
deriving DecidableEq

/-- The static `inputs[SW_INPUTS]` table of `part_000`.  The loop passes
`isShift = (i == 0)`, so the shift input of this variant is entry 0. -/
def inputs : List digitalInput := [
  ⟨4, HIGH, 0, 53, 53⟩,                              -- P1 COIN ('5','5')
  ⟨5, HIGH, 0, 54, 54⟩,                              -- P2 COIN ('6','6')
  ⟨3, HIGH, 0, KEY_F2, KEY_F2⟩,                      -- SERVICE SW
  ⟨2, HIGH, 0, 57, 57⟩,                              -- TEST SW ('9')
  ⟨6, HIGH, 0, 49, 49⟩,                              -- P1 START ('1','1')
  ⟨7, HIGH, 0, 50, 50⟩,                              -- P2 START ('2','2')
  ⟨8, HIGH, 0, KEY_UP_ARROW, KEY_UP_ARROW⟩,          -- P1 UP
  ⟨10, HIGH, 0, KEY_DOWN_ARROW, KEY_DOWN_ARROW⟩,     -- P1 DOWN
  ⟨16, HIGH, 0, KEY_LEFT_ARROW, KEY_LEFT_ARROW⟩,     -- P1 LEFT
  ⟨14, HIGH, 0, KEY_RIGHT_ARROW, KEY_RIGHT_ARROW⟩,   -- P1 RIGHT
  ⟨12, HIGH, 0, KEY_LEFT_CTRL, KEY_LEFT_CTRL⟩,       -- P1 B1
  ⟨20, HIGH, 0, KEY_LEFT_ALT, KEY_LEFT_ALT⟩,         -- P1 B2
  ⟨18, HIGH, 0, 32, 32⟩,                             -- P1 B3 (space)
  ⟨22, HIGH, 0, KEY_LEFT_SHIFT, KEY_LEFT_SHIFT⟩,     -- P1 B4
  ⟨24, HIGH, 0, 122, 122⟩,                           -- P1 B5 ('z')
  ⟨27, HIGH, 0, 120, 120⟩,                           -- P1 B6 ('x')
  ⟨9, HIGH, 0, 114, 114⟩,                            -- P2 UP ('r')
  ⟨11, HIGH, 0, 102, 102⟩,                           -- P2 DOWN ('f')
  ⟨17, HIGH, 0, 100, 100⟩,                           -- P2 LEFT ('d')
  ⟨15, HIGH, 0, 103, 103⟩,                           -- P2 RIGHT ('g')
  ⟨13, HIGH, 0, 97, 97⟩,                             -- P2 B1 ('a')
  ⟨21, HIGH, 0, 115, 115⟩,                           -- P2 B2 ('s')
  ⟨19, HIGH, 0, 113, 113⟩,                           -- P2 B3 ('q')
  ⟨23, HIGH, 0, 119, 119⟩,                           -- P2 B4 ('w')
  ⟨26, HIGH, 0, 101, 101⟩,                           -- P2 B5 ('e')
  ⟨28, HIGH, 0, 121, 121⟩]                           -- P2 B6 ('y')

/-- The debounce gate of `handleInput`:
`millis() - input->dbTime > debTime && digitalRead(input->pin) != input->state`.
Note the comparison is strict (`>`), unlike the refactored variant's `>=`. -/
def accept (inp : digitalInput) (raw : Bool) (now : Nat) : Prop :=
  debTime < sub32 now inp.dbTime ∧ raw ≠ inp.state

instance (inp : digitalInput) (raw : Bool) (now : Nat) : Decidable (accept inp raw now) := by
  unfold accept; infer_instance

/-- `handleInput(&inputs[i], i == 0)` of `part_000` for one input.
`shift0State` is `inputs[0].state` as seen by this call (for the call with
`isShift = true` the `isShift ||` disjunct short-circuits, so the value is
irrelevant there).  `raw` is the `digitalRead` sample and `now` is `millis()`. -/
def handleInput (shift0State startBlock : Bool) (isShift : Bool)
    (inp : digitalInput) (raw : Bool) (now : Nat) : digitalInput × Bool × List KeyEvent :=
  if accept inp raw now then
    let inp2 : digitalInput := { inp with dbTime := now, state := raw }
    let btn : Nat := if isShift = true ∨ shift0State = HIGH then inp.btn else inp.btn_shift
    let evs : List KeyEvent :=
      if 32 < btn then
        [if raw = LOW then KeyEvent.press btn else KeyEvent.release btn]
      else []
    let sb1 : Bool := if isShift = true ∧ raw = LOW then true else startBlock
    let sb2 : Bool := if isShift = true ∧ raw = HIGH ∧ sb1 = true then false else sb1
    (inp2, sb2, evs)
  else (inp, startBlock, [])

/-- The initialization loop of `setup`:
`inputs[i].state = digitalRead(inputs[i].pin); inputs[i].dbTime = millis();`. -/
def setup (readPin : Nat → Bool) (now0 : Nat) : List digitalInput :=
  inputs.map fun e => { e with state := readPin e.pin, dbTime := now0 }

/-- `#define samples 100`. -/
def samples : Nat := 100

/-- `#define DEFAULT_FREQ 55`. -/
def DEFAULT_FREQ : Nat := 55

/-- The four globals driving `freqBlock` of `part_000`. -/
structure FreqState where
  periodSum : Nat
  sCounter : Nat
  enableState : Bool
  prevEnState : Bool
deriving DecidableEq

/-- Values of the globals at program start. -/
def freqInit : FreqState := ⟨0, 0, false, false⟩

/-- One call of `freqBlock` of `part_000` with `periodIst` the `pulseIn`
measurement.  Returns the new globals and the `(disablePin, ledPin)` levels
written, if any. -/
def freqBlock (s : FreqState) (periodIst : Nat) : FreqState × List (Bool × Bool) :=
  let periodSum := s.periodSum + periodIst
  let sCounter := s.sCounter + 1
  if samples < sCounter then
    let periodAWG := periodSum / sCounter
    let enableState : Bool := decide (DEFAULT_FREQ < periodAWG)
    if enableState ≠ s.prevEnState then
      (⟨0, 0, enableState, enableState⟩, [(!enableState, enableState)])
    else
      (⟨0, 0, enableState, s.prevEnState⟩, [])
  else
    ({ s with periodSum := periodSum, sCounter := sCounter }, [])

/-- Successive `freqBlock` calls over a list of `pulseIn` measurements,
collecting all output writes. -/
def freqRun : FreqState → List Nat → FreqState × List (Bool × Bool)
  | s, [] => (s, [])
  | s, p :: rest =>
    let r := freqBlock s p
    let r2 := freqRun r.1 rest
    (r2.1, r.2 ++ r2.2)

end P0

namespace P2

/-- `#define DEBOUNCE_MS 8ul`. -/
def DEBOUNCE_MS : Nat := 8

/-- `#define PICO_GPIO_MASK 0x1C7FFFFF`. -/
def PICO_GPIO_MASK : Nat := 0x1C7FFFFF

/-- The `buttons[PICO_GPIO_COUNT]` GPIO map of `part_002`. -/
def buttonsList : List Nat :=
  [8, 10, 16, 14, 12, 20, 18, 22, 24, 28, 2, 4, 6,
   9, 11, 17, 15, 13, 21, 19, 23, 26, 27, 3, 5, 7]

/-- `buttons[i]`. -/
def buttons (i : Fin 26) : Nat := buttonsList.getD i.val 0

/-- `gamepads[i < 13 ? 0 : 1]`: report group of button `i`. -/
def grp (i : Fin 26) : Fin 2 := if i.val < 13 then 0 else 1

/-- The mutable globals of `part_002`: `states[]`, `timers[]` and the two
`GamepadInfo` records (last written report mask and `needToSend`). -/
structure State where
  states : Fin 26 → Nat
  timers : Fin 26 → Nat
  report : Fin 2 → Nat
  needToSend : Fin 2 → Bool

/-- The globals at program start (all zero-initialized). -/
def init : State :=
  { states := fun _ => 0, timers := fun _ => 0,
    report := fun _ => 0, needToSend := fun _ => false }

/-- Body of the per-button `for` loop of `loop()` for button `i`. -/
def buttonStep (gpioNow timeNow : Nat) (s : State) (i : Fin 26) : State :=
  if DEBOUNCE_MS < sub32 timeNow (s.timers i) then
    let state : Nat := if Nat.testBit gpioNow (buttons i) then 1 else 0
    if state ≠ s.states i then
      { s with states := Function.update s.states i state,
               timers := Function.update s.timers i timeNow,
               needToSend := Function.update s.needToSend (grp i) true }
    else s
  else s

/-- The whole per-button `for` loop over `i = 0 .. 25`. -/
def buttonPhase (gpioNow timeNow : Nat) (s : State) : State :=
  (List.finRange 26).foldl (buttonStep gpioNow timeNow) s

/-- Global button index `i*13 + j` of bit `j` of report group `i`. -/
def idx (g : Fin 2) (j : Fin 13) : Fin 26 :=
  ⟨g.val * 13 + j.val, by have hg := g.isLt; have hj := j.isLt; omega⟩

/-- The report-rebuild loop:
`buttonStates = 0; for j: buttonStates |= states[j] << (j - i*13)`. -/
def pack (states : Fin 26 → Nat) (g : Fin 2) : Nat :=
  (List.finRange 13).foldl (fun m j => m ||| (states (idx g j) <<< j.val)) 0

/-- Body of the per-gamepad `for` loop of `loop()` for group `g`: rebuild the
report from `states[]`, send it, clear `needToSend`.  Returns the new state
and the `(report id, mask)` reports transmitted. -/
def sendGroup (s : State) (g : Fin 2) : State × List (Fin 2 × Nat) :=
  if s.needToSend g then
    let mask := pack s.states g
    ({ s with report := Function.update s.report g mask,
              needToSend := Function.update s.needToSend g false }, [(g, mask)])
  else (s, [])

/-- The whole per-gamepad `for` loop over `g = 0, 1`. -/
def sendPhase (s : State) : State × List (Fin 2 × Nat) :=
  let r0 := sendGroup s 0
  let r1 := sendGroup r0.1 1
  (r1.1, r0.2 ++ r1.2)

/-- `gpio_now = ~gpio_get_all(); gpio_now &= PICO_GPIO_MASK;`. -/
def gpioNowOf (gpio : Nat) : Nat := Nat.land (U32 - 1 - gpio % U32) PICO_GPIO_MASK

/-- One iteration of `loop()`: the button phase followed by the send phase.
`gpio` is the raw `gpio_get_all()` value and `timeMs` is `time_us_64()/1000`
before truncation to `uint32_t`. -/
def loopStep (s : State) (gpio timeMs : Nat) : State × List (Fin 2 × Nat) :=
  sendPhase (buttonPhase (gpioNowOf gpio) (timeMs % U32) s)

/-- A whole run of `loop()` iterations from a given state over a trace of
`(gpio, time)` snapshots, collecting every transmitted report. -/
def run : State → List (Nat × Nat) → State × List (Fin 2 × Nat)
  | s, [] => (s, [])
  | s, (g, t) :: rest =>
    let r := loopStep s g t
    let r2 := run r.1 rest
    (r2.1, r.2 ++ r2.2)

/-- The debounce logic of the per-button loop body for one button in
isolation: current `states[i]` and `timers[i]`, the sampled `gpio_now`
snapshot and `time_now`, and the button's GPIO pin.  Returns the new state,
new timer, and whether a confirmed transition occurred. -/
def inputStep (st timer : Nat) (gpioNow timeNow : Nat) (pin : Nat) : Nat × Nat × Bool :=
  if DEBOUNCE_MS < sub32 timeNow timer then
    let state : Nat := if Nat.testBit gpioNow pin then 1 else 0
    if state ≠ st then (state, timeNow, true) else (st, timer, false)
  else (st, timer, false)

/-- Feeding one button a sequence of `(gpio_now, time_now)` snapshots,
counting confirmed transitions. -/
def runInput (pin : Nat) : Nat × Nat → List (Nat × Nat) → (Nat × Nat) × Nat
  | (st, timer), [] => ((st, timer), 0)
  | (st, timer), (g, t) :: rest =>
    let r := inputStep st timer g t pin
    let r2 := runInput pin (r.1, r.2.1) rest
    (r2.1, (if r.2.2 then 1 else 0) + r2.2)

end P2

/-! Theorems. -/

theorem Ino.accept_ge_iff (inp : Ino.digitalInput) (raw : Bool) (now : Nat)
    (h1 : inp.debTimestamp ≤ now) (h2 : now < U32) :
    Ino.accept inp raw now ↔
      raw ≠ inp.state ∧ Ino.DEBOUNCE_TIME ≤ now - inp.debTimestamp := by
  unfold Ino.accept
  rw [sub32_eq_sub h1 h2]
  constructor
  · exact fun h => ⟨h.1.symm, h.2⟩
  · exact fun h => ⟨h.1.symm, h.2⟩

theorem P0.accept_strict_iff (inp : P0.digitalInput) (raw : Bool) (now : Nat)
    (h1 : inp.dbTime ≤ now) (h2 : now < U32) :
    P0.accept inp raw now ↔
      raw ≠ inp.state ∧ P0.debTime < now - inp.dbTime := by
  unfold P0.accept
  rw [sub32_eq_sub h1 h2]
  exact ⟨fun h => ⟨h.2, h.1⟩, fun h => ⟨h.2, h.1⟩⟩

/-- C1 (amended).  Gate characterization of the three debounce engines, with
`uint32_t` subtraction rewritten to plain subtraction for monotone clocks.
The refactored keyboard variant accepts exactly when the raw level differs
from the confirmed state and at least `DEBOUNCE_TIME = 10` ms have elapsed
(`>=`); on acceptance it commits the raw level and the current time and emits
exactly one key action whose direction matches the new level, and on a failed
gate it leaves the input and the shift latch unchanged and emits nothing.
The `part_000` and gamepad (`part_002`) engines behave the same except that
their gates are strict: strictly more than `40` ms (resp. `8` ms) must have
elapsed. -/
theorem claim1_debounce_gate_characterization :
    (∀ (shiftState sb : Bool) (inp : Ino.digitalInput) (raw : Bool) (now : Nat),
      inp.debTimestamp ≤ now → now < U32 →
      ((raw ≠ inp.state ∧ Ino.DEBOUNCE_TIME ≤ now - inp.debTimestamp →
          (Ino.handleButtonsBody shiftState sb inp raw now).1 =
            { inp with state := raw, debTimestamp := now } ∧
          (Ino.handleButtonsBody shiftState sb inp raw now).2.2.length = 1 ∧
          ∀ e ∈ (Ino.handleButtonsBody shiftState sb inp raw now).2.2,
            e.isPress = decide (raw = LOW)) ∧
       (¬(raw ≠ inp.state ∧ Ino.DEBOUNCE_TIME ≤ now - inp.debTimestamp) →
          Ino.handleButtonsBody shiftState sb inp raw now = (inp, sb, [])))) ∧
    (∀ (shift0State sb isShift : Bool) (inp : P0.digitalInput) (raw : Bool) (now : Nat),
      inp.dbTime ≤ now → now < U32 →
      ((raw ≠ inp.state ∧ P0.debTime < now - inp.dbTime →
          (P0.handleInput shift0State sb isShift inp raw now).1 =
            { inp with state := raw, dbTime := now }) ∧
       (¬(raw ≠ inp.state ∧ P0.debTime < now - inp.dbTime) →
          P0.handleInput shift0State sb isShift inp raw now = (inp, sb, [])))) ∧
    (∀ (st timer gpioNow timeNow pin : Nat),
      timer ≤ timeNow → timeNow < U32 →
      P2.inputStep st timer gpioNow timeNow pin =
        if (if Nat.testBit gpioNow pin then 1 else 0) ≠ st ∧
            P2.DEBOUNCE_MS < timeNow - timer then
          ((if Nat.testBit gpioNow pin then 1 else 0), timeNow, true)
        else (st, timer, false)) := by
  refine ⟨?_, ?_, ?_⟩
  · intro shiftState sb inp raw now h1 h2
    constructor
    · intro hA
      have hacc : Ino.accept inp raw now := (Ino.accept_ge_iff inp raw now h1 h2).mpr hA
      cases shiftState <;> cases raw <;>
        simp [Ino.handleButtonsBody, if_pos hacc, HIGH, LOW, KeyEvent.isPress]
    · intro hA
      have hnacc : ¬ Ino.accept inp raw now :=
        fun h => hA ((Ino.accept_ge_iff inp raw now h1 h2).mp h)
      simp [Ino.handleButtonsBody, if_neg hnacc]
  · intro shift0State sb isShift inp raw now h1 h2
    constructor
    · intro hA
      have hacc : P0.accept inp raw now := (P0.accept_strict_iff inp raw now h1 h2).mpr hA
      simp [P0.handleInput, if_pos hacc]
    · intro hA
      have hnacc : ¬ P0.accept inp raw now :=
        fun h => hA ((P0.accept_strict_iff inp raw now h1 h2).mp h)
      simp [P0.handleInput, if_neg hnacc]
  · intro st timer gpioNow timeNow pin h1 h2
    unfold P2.inputStep
    rw [sub32_eq_sub h1 h2]
    by_cases ht : P2.DEBOUNCE_MS < timeNow - timer
    · by_cases hc : (if Nat.testBit gpioNow pin then (1 : Nat) else 0) ≠ st
      · rw [if_pos ht, if_pos hc, if_pos (And.intro hc ht)]
      · rw [if_pos ht, if_neg hc, if_neg (fun h => hc h.1)]
    · rw [if_neg ht, if_neg (fun (h : _ ∧ _) => ht h.2)]

/-- C1 witness: a concrete application of the gate characterization (input
P1 B5 of the refactored table, raw level equal to the confirmed state, so the
gate fails and nothing changes). -/
theorem claim1_witness :
    Ino.handleButtonsBody HIGH false ⟨24, 0, HIGH, 122, 122⟩ HIGH 10 =
      (⟨24, 0, HIGH, 122, 122⟩, false, []) :=
  (claim1_debounce_gate_characterization.1 HIGH false ⟨24, 0, HIGH, 122, 122⟩ HIGH 10
    (by decide) (by decide)).2 (by decide)

theorem Ino.handleButtonsBody_fst (shiftState sb : Bool) (inp : Ino.digitalInput)
    (raw : Bool) (now : Nat) (h : Ino.accept inp raw now) :
    (Ino.handleButtonsBody shiftState sb inp raw now).1 =
      { inp with state := raw, debTimestamp := now } := by
  simp [Ino.handleButtonsBody, if_pos h]

theorem Ino.handleButtonsBody_not_accept (shiftState sb : Bool) (inp : Ino.digitalInput)
    (raw : Bool) (now : Nat) (h : ¬ Ino.accept inp raw now) :
    Ino.handleButtonsBody shiftState sb inp raw now = (inp, sb, []) := by
  simp [Ino.handleButtonsBody, if_neg h]

theorem Ino.runInput_const_level_kb (shiftState sb : Bool) (inp : Ino.digitalInput)
    (raw : Bool) (h : inp.state = raw) (times : List Nat) :
    Ino.runInput shiftState sb inp (times.map fun t => (raw, t)) = (inp, sb, 0) := by
  induction times with
  | nil => rfl
  | cons t rest ih =>
    have hnacc : ¬ Ino.accept inp raw t := fun hc => hc.1 h
    simp only [List.map_cons, Ino.runInput,
      Ino.handleButtonsBody_not_accept shiftState sb inp raw t hnacc, ih,
      if_neg hnacc]

theorem Ino.runInput_bounce_kb (shiftState sb : Bool) (inp : Ino.digitalInput) :
    ∀ samples : List (Bool × Nat),
      (∀ p ∈ samples, inp.debTimestamp ≤ p.2 ∧ p.2 < U32 ∧
          p.2 - inp.debTimestamp < Ino.DEBOUNCE_TIME) →
      Ino.runInput shiftState sb inp samples = (inp, sb, 0) := by
  intro samples
  induction samples with
  | nil => intro h; rfl
  | cons p rest ih =>
    intro h
    obtain ⟨raw, t⟩ := p
    obtain ⟨hle, hlt, hwin⟩ := h (raw, t) (List.mem_cons_self _ _)
    have hnacc : ¬ Ino.accept inp raw t := by
      unfold Ino.accept
      rw [sub32_eq_sub hle hlt]
      exact fun hc => absurd hc.2 (Nat.not_le.mpr hwin)
    simp only [Ino.runInput,
      Ino.handleButtonsBody_not_accept shiftState sb inp raw t hnacc,
      ih (fun q hq => h q (List.mem_cons_of_mem _ hq)), if_neg hnacc]

theorem P2.runInput_const_level_gp (pin st timer g : Nat)
    (h : st = if Nat.testBit g pin then 1 else 0) (times : List Nat) :
    P2.runInput pin (st, timer) (times.map fun t => (g, t)) = ((st, timer), 0) := by
  induction times with
  | nil => rfl
  | cons t rest ih =>
    have hstep : P2.inputStep st timer g t pin = (st, timer, false) := by
      unfold P2.inputStep
      by_cases ht : P2.DEBOUNCE_MS < sub32 t timer
      · rw [if_pos ht, if_neg (fun hc => hc h.symm)]
      · rw [if_neg ht]
    simp only [List.map_cons, P2.runInput, hstep, ih, if_neg Bool.false_ne_true]

theorem P2.runInput_bounce_gp (pin st timer : Nat) :
    ∀ samples : List (Nat × Nat),
      (∀ p ∈ samples, timer ≤ p.2 ∧ p.2 < U32 ∧ p.2 - timer < P2.DEBOUNCE_MS) →
      P2.runInput pin (st, timer) samples = ((st, timer), 0) := by
  intro samples
  induction samples with
  | nil => intro h; rfl
  | cons p rest ih =>
    intro h
    obtain ⟨g, t⟩ := p
    obtain ⟨hle, hlt, hwin⟩ := h (g, t) (List.mem_cons_self _ _)
    have hstep : P2.inputStep st timer g t pin = (st, timer, false) := by
      unfold P2.inputStep
      rw [sub32_eq_sub hle hlt, if_neg (Nat.not_lt.mpr hwin.le)]
    simp only [P2.runInput, hstep,
      ih (fun q hq => h q (List.mem_cons_of_mem _ hq)), if_neg Bool.false_ne_true]

/-- C2.  For one input of the refactored keyboard variant (and likewise one
button of the gamepad variant): a sequence of raw samples all taken less than
the debounce window after the input's last-change timestamp produces zero
confirmed transitions and leaves the input unchanged, and a sequence of
samples all carrying the same raw level, at arbitrary times, produces at most
one confirmed transition in total. -/
theorem claim2_debounce_rate_limit :
    (∀ (shiftState sb : Bool) (inp : Ino.digitalInput) (samples : List (Bool × Nat)),
      (∀ p ∈ samples, inp.debTimestamp ≤ p.2 ∧ p.2 < U32 ∧
          p.2 - inp.debTimestamp < Ino.DEBOUNCE_TIME) →
      Ino.runInput shiftState sb inp samples = (inp, sb, 0)) ∧
    (∀ (shiftState sb : Bool) (inp : Ino.digitalInput) (raw : Bool) (times : List Nat),
      (Ino.runInput shiftState sb inp (times.map fun t => (raw, t))).2.2 ≤ 1) ∧
    (∀ (pin st timer : Nat) (samples : List (Nat × Nat)),
      (∀ p ∈ samples, timer ≤ p.2 ∧ p.2 < U32 ∧ p.2 - timer < P2.DEBOUNCE_MS) →
      P2.runInput pin (st, timer) samples = ((st, timer), 0)) ∧
    (∀ (pin st timer g : Nat) (times : List Nat),
      (P2.runInput pin (st, timer) (times.map fun t => (g, t))).2 ≤ 1) := by
  refine ⟨fun a b c d => Ino.runInput_bounce_kb a b c d, ?_,
    fun a b c d => P2.runInput_bounce_gp a b c d, ?_⟩
  · intro shiftState sb inp raw times
    induction times with
    | nil => simp [Ino.runInput]
    | cons t rest ih =>
      by_cases hacc : Ino.accept inp raw t
      · have h1 : (Ino.handleButtonsBody shiftState sb inp raw t).1.state = raw := by
          rw [Ino.handleButtonsBody_fst shiftState sb inp raw t hacc]
        have hconst := Ino.runInput_const_level_kb shiftState
          (Ino.handleButtonsBody shiftState sb inp raw t).2.1
          (Ino.handleButtonsBody shiftState sb inp raw t).1 raw h1 rest
        simp [Ino.runInput, hconst, if_pos hacc]
      · simp only [List.map_cons, Ino.runInput,
          Ino.handleButtonsBody_not_accept shiftState sb inp raw t hacc,
          if_neg hacc]
        simpa using ih
  · intro pin st timer g times
    induction times with
    | nil => simp [P2.runInput]
    | cons t rest ih =>
      by_cases ht : P2.DEBOUNCE_MS < sub32 t timer
      · by_cases hc : (if Nat.testBit g pin then (1 : Nat) else 0) ≠ st
        · have hstep : P2.inputStep st timer g t pin =
              ((if Nat.testBit g pin then 1 else 0), t, true) := by
            unfold P2.inputStep; rw [if_pos ht, if_pos hc]
          have hconst := P2.runInput_const_level_gp pin
            (if Nat.testBit g pin then 1 else 0) t g rfl rest
          simp [P2.runInput, hstep, hconst]
        · have hstep : P2.inputStep st timer g t pin = (st, timer, false) := by
            unfold P2.inputStep; rw [if_pos ht, if_neg hc]
          simp only [List.map_cons, P2.runInput, hstep, if_neg Bool.false_ne_true]
          simpa using ih
      · have hstep : P2.inputStep st timer g t pin = (st, timer, false) := by
          unfold P2.inputStep; rw [if_neg ht]
        simp only [List.map_cons, P2.runInput, hstep, if_neg Bool.false_ne_true]
        simpa using ih

/-- C2 witness: concrete applications of both zero-transition conjuncts — a
bounce sample 5 ms after the last change of P1 B5 (window 10 ms) in the
keyboard variant, and one 3 ms after the last change of a gamepad button
(window 8 ms). -/
theorem claim2_witness :
    Ino.runInput HIGH false ⟨24, 100, HIGH, 122, 122⟩ [(LOW, 105)] =
      (⟨24, 100, HIGH, 122, 122⟩, false, 0) ∧
    P2.runInput 8 (0, 100) [(256, 103)] = ((0, 100), 0) :=
  ⟨claim2_debounce_rate_limit.1 HIGH false ⟨24, 100, HIGH, 122, 122⟩ [(LOW, 105)]
      (by decide),
   claim2_debounce_rate_limit.2.2.1 8 0 100 [(256, 103)] (by decide)⟩

/-- C1 counterexample: the claim's gate reads `elapsed >= window` for every
engine, but `part_000` tests `millis() - dbTime > debTime`.  For input P1 B5
of `part_000` with `dbTime = 0`, a differing raw sample at `now = 40` has
elapsed exactly `debTime = 40`, satisfying the claim's gate, yet the code
rejects it: state, timestamp and outputs are all unchanged. -/
theorem claim1_counterexample :
    (LOW ≠ (P0.inputs.getD 14 ⟨0, HIGH, 0, 0, 0⟩).state ∧
      P0.debTime ≤ sub32 40 (P0.inputs.getD 14 ⟨0, HIGH, 0, 0, 0⟩).dbTime) ∧
    P0.handleInput HIGH false false (P0.inputs.getD 14 ⟨0, HIGH, 0, 0, 0⟩) LOW 40 =
      (P0.inputs.getD 14 ⟨0, HIGH, 0, 0, 0⟩, false, []) := by
  decide

/-- C3 (amended).  Confirmed pressed-edge of a non-shift input: in the
refactored variant, while the shift input's confirmed state is held (`LOW`)
the shifted code is pressed and `startBlock` becomes `true`, and while it is
not held the primary code is pressed with `startBlock` untouched.  In
`part_000` the resolved code is pressed only when it exceeds 32, and
`startBlock` is never modified by a non-shift input. -/
theorem claim3_shift_resolution_on_press :
    (∀ (sb : Bool) (inp : Ino.digitalInput) (now : Nat),
      Ino.accept inp LOW now →
      Ino.handleButtonsBody LOW sb inp LOW now =
        ({ inp with state := LOW, debTimestamp := now }, true,
          [KeyEvent.press inp.btn_shift]) ∧
      Ino.handleButtonsBody HIGH sb inp LOW now =
        ({ inp with state := LOW, debTimestamp := now }, sb,
          [KeyEvent.press inp.btn])) ∧
    (∀ (sb : Bool) (inp : P0.digitalInput) (now : Nat),
      P0.accept inp LOW now →
      P0.handleInput LOW sb false inp LOW now =
        ({ inp with state := LOW, dbTime := now }, sb,
          if 32 < inp.btn_shift then [KeyEvent.press inp.btn_shift] else []) ∧
      P0.handleInput HIGH sb false inp LOW now =
        ({ inp with state := LOW, dbTime := now }, sb,
          if 32 < inp.btn then [KeyEvent.press inp.btn] else [])) := by
  constructor
  · intro sb inp now hacc
    simp only [LOW] at hacc
    constructor <;> simp [Ino.handleButtonsBody, if_pos hacc, HIGH, LOW]
  · intro sb inp now hacc
    simp only [LOW] at hacc
    constructor <;> simp [P0.handleInput, if_pos hacc, HIGH, LOW]

/-- C3 witness: P1 B5 of the refactored table, pressed 10 ms after its last
change while shift is held: the shifted code 122 is pressed and `startBlock`
is latched. -/
theorem claim3_witness :
    Ino.handleButtonsBody LOW false ⟨24, 0, HIGH, 122, 122⟩ LOW 10 =
      (⟨24, 10, LOW, 122, 122⟩, true, [KeyEvent.press 122]) :=
  (claim3_shift_resolution_on_press.1 false ⟨24, 0, HIGH, 122, 122⟩ 10 (by decide)).1

/-- C3 counterexample: in `part_000`, a confirmed pressed-edge of non-shift
input P1 B5 while shift is held presses the shifted code, but `startBlock`
stays `false` — the claim's "startBlock becomes true" fails (`part_000` only
sets it on the shift input's own pressed-edge). -/
theorem claim3_counterexample :
    P0.inputs.getD 14 ⟨0, HIGH, 0, 0, 0⟩ = ⟨24, HIGH, 0, 122, 122⟩ ∧
    P0.handleInput LOW false false ⟨24, HIGH, 0, 122, 122⟩ LOW 41 =
      (⟨24, LOW, 41, 122, 122⟩, false, [KeyEvent.press 122]) := by
  decide

/-- C4 (amended).  Confirmed released-edge of a non-shift input: in the
refactored variant, the code released is the one matching the shift input's
confirmed state at the moment the release is processed (`shiftedCode` if
then held, `primaryCode` otherwise), regardless of what was pressed earlier.
In `part_000` the resolution is identical but a release is emitted only when
the resolved code exceeds 32. -/
theorem claim4_release_uses_current_shift_state :
    (∀ (sb : Bool) (inp : Ino.digitalInput) (now : Nat),
      Ino.accept inp HIGH now →
      Ino.handleButtonsBody LOW sb inp HIGH now =
        ({ inp with state := HIGH, debTimestamp := now }, sb,
          [KeyEvent.release inp.btn_shift]) ∧
      Ino.handleButtonsBody HIGH sb inp HIGH now =
        ({ inp with state := HIGH, debTimestamp := now }, sb,
          [KeyEvent.release inp.btn])) ∧
    (∀ (sb : Bool) (inp : P0.digitalInput) (now : Nat),
      P0.accept inp HIGH now →
      P0.handleInput LOW sb false inp HIGH now =
        ({ inp with state := HIGH, dbTime := now }, sb,
          if 32 < inp.btn_shift then [KeyEvent.release inp.btn_shift] else []) ∧
      P0.handleInput HIGH sb false inp HIGH now =
        ({ inp with state := HIGH, dbTime := now }, sb,
          if 32 < inp.btn then [KeyEvent.release inp.btn] else [])) := by
  constructor
  · intro sb inp now hacc
    simp only [HIGH] at hacc
    constructor <;> simp [Ino.handleButtonsBody, if_pos hacc, HIGH, LOW]
  · intro sb inp now hacc
    simp only [HIGH] at hacc
    constructor <;> simp [P0.handleInput, if_pos hacc, HIGH, LOW]

/-- C4 witness: P1 B2 of the refactored table was pressed unshifted
(`KEY_LEFT_ALT`), but is released while shift is held: the code released is
the shifted one (`KEY_RETURN`), matching the shift state at release time. -/
theorem claim4_witness :
    Ino.handleButtonsBody LOW false ⟨20, 0, LOW, KEY_LEFT_ALT, KEY_RETURN⟩ HIGH 10 =
      (⟨20, 10, HIGH, KEY_LEFT_ALT, KEY_RETURN⟩, false, [KeyEvent.release KEY_RETURN]) :=
  (claim4_release_uses_current_shift_state.1 false ⟨20, 0, LOW, KEY_LEFT_ALT, KEY_RETURN⟩ 10
    (by decide)).1

/-- C4 counterexample: in `part_000`, input P1 B3 carries the space code 32;
on its confirmed released-edge (shift not held) the gate `btn > 32` fails and
no release of the primary code is emitted, contrary to the claim. -/
theorem claim4_counterexample :
    P0.inputs.getD 12 ⟨0, HIGH, 0, 0, 0⟩ = ⟨18, HIGH, 0, 32, 32⟩ ∧
    P0.handleInput HIGH false false ⟨18, LOW, 0, 32, 32⟩ HIGH 41 =
      (⟨18, HIGH, 41, 32, 32⟩, false, []) := by
  decide

/-- C5 (amended).  Shift-input edges.  Refactored variant: on a confirmed
released-edge with `startBlock = false` (no shifted action during the hold)
exactly one press immediately followed by one release of the shift input's
primary code is emitted; with `startBlock = true` nothing is emitted and
`startBlock` resets to `false`; a pressed-edge emits nothing; and a full
press-then-release of the shift input alone emits exactly the press+release
pair.  `part_000` instead emits the shift input's own key like an ordinary
button: press of its primary code at the pressed-edge (latching
`startBlock`), release of it at the released-edge (resetting `startBlock`). -/
theorem claim5_shift_release_behavior :
    (∀ (inp0 : Ino.digitalInput) (now : Nat),
      Ino.accept inp0 HIGH now →
      Ino.handleShiftButton false inp0 HIGH now =
        ({ inp0 with state := HIGH, debTimestamp := now }, false,
          [KeyEvent.press inp0.btn, KeyEvent.release inp0.btn]) ∧
      Ino.handleShiftButton true inp0 HIGH now =
        ({ inp0 with state := HIGH, debTimestamp := now }, false, [])) ∧
    (∀ (sb : Bool) (inp0 : Ino.digitalInput) (now : Nat),
      Ino.accept inp0 LOW now →
      Ino.handleShiftButton sb inp0 LOW now =
        ({ inp0 with state := LOW, debTimestamp := now }, sb, [])) ∧
    (∀ (inp0 : Ino.digitalInput) (t1 t2 : Nat),
      Ino.accept inp0 LOW t1 →
      Ino.accept { inp0 with state := LOW, debTimestamp := t1 } HIGH t2 →
      (Ino.handleShiftButton false inp0 LOW t1).2.2 = [] ∧
      (Ino.handleShiftButton
          (Ino.handleShiftButton false inp0 LOW t1).2.1
          (Ino.handleShiftButton false inp0 LOW t1).1 HIGH t2).2.2 =
        [KeyEvent.press inp0.btn, KeyEvent.release inp0.btn]) ∧
    (∀ (s0 sb : Bool) (inp : P0.digitalInput) (now : Nat),
      P0.accept inp LOW now →
      P0.handleInput s0 sb true inp LOW now =
        ({ inp with state := LOW, dbTime := now }, true,
          if 32 < inp.btn then [KeyEvent.press inp.btn] else [])) ∧
    (∀ (s0 sb : Bool) (inp : P0.digitalInput) (now : Nat),
      P0.accept inp HIGH now →
      P0.handleInput s0 sb true inp HIGH now =
        ({ inp with state := HIGH, dbTime := now }, false,
          if 32 < inp.btn then [KeyEvent.release inp.btn] else [])) := by
  refine ⟨?_, ?_, ?_, ?_, ?_⟩
  · intro inp0 now hacc
    simp only [HIGH] at hacc
    constructor <;> simp [Ino.handleShiftButton, if_pos hacc, HIGH, LOW]
  · intro sb inp0 now hacc
    simp only [LOW] at hacc
    simp [Ino.handleShiftButton, if_pos hacc, HIGH, LOW]
  · intro inp0 t1 t2 h1 h2
    simp only [HIGH, LOW] at h1 h2 ⊢
    have e1 : Ino.handleShiftButton false inp0 false t1 =
        ({ inp0 with state := false, debTimestamp := t1 }, false, []) := by
      simp [Ino.handleShiftButton, if_pos h1, HIGH, LOW]
    rw [e1]
    simp [Ino.handleShiftButton, if_pos h2, HIGH, LOW]
  · intro s0 sb inp now hacc
    simp only [LOW] at hacc
    cases s0 <;> cases sb <;> simp [P0.handleInput, if_pos hacc, HIGH, LOW]
  · intro s0 sb inp now hacc
    simp only [HIGH] at hacc
    cases s0 <;> cases sb <;> simp [P0.handleInput, if_pos hacc, HIGH, LOW]

/-- C5 witness: a press-then-release of the refactored shift input alone
(P1 START, code '1' = 49) emits nothing at the pressed-edge and exactly one
press+release pair of its primary code at the released-edge. -/
theorem claim5_witness :
    (Ino.handleShiftButton false ⟨6, 0, HIGH, 49, 49⟩ LOW 10).2.2 = [] ∧
    (Ino.handleShiftButton
        (Ino.handleShiftButton false ⟨6, 0, HIGH, 49, 49⟩ LOW 10).2.1
        (Ino.handleShiftButton false ⟨6, 0, HIGH, 49, 49⟩ LOW 10).1 HIGH 25).2.2 =
      [KeyEvent.press 49, KeyEvent.release 49] :=
  claim5_shift_release_behavior.2.2.1 ⟨6, 0, HIGH, 49, 49⟩ 10 25 (by decide) (by decide)

theorem Ino.freqAccum_of_no_zero :
    ∀ (l : List Nat) (t : Nat), (∀ d ∈ l, d ≠ 0) →
      Ino.freqAccum l t = (t + l.sum, false) := by
  intro l
  induction l with
  | nil => intro t h; simp [Ino.freqAccum]
  | cons d rest ih =>
    intro t h
    have hd : d ≠ 0 := h d (List.mem_cons_self _ _)
    simp only [Ino.freqAccum, if_neg hd]
    rw [ih (t + d) (fun q hq => h q (List.mem_cons_of_mem _ hq))]
    simp [List.sum_cons, Nat.add_assoc]

theorem Ino.freqAccum_of_zero :
    ∀ (l : List Nat) (t : Nat), 0 ∈ l → (Ino.freqAccum l t).2 = true := by
  intro l
  induction l with
  | nil => intro t h; simp at h
  | cons d rest ih =>
    intro t h
    by_cases hd : d = 0
    · simp [Ino.freqAccum, hd]
    · have hmem : 0 ∈ rest := by
        rcases List.mem_cons.mp h with h0 | h0
        · exact absurd h0.symm hd
        · exact h0
      simp [Ino.freqAccum, if_neg hd, ih _ hmem]

/-- C7.  The range-check sync monitor of the refactored variant: over one
accumulation cycle of `PULSE_COUNT = 100` measurements, a zero-duration
reading anywhere terminates the cycle early (the total Lean function cannot
hang) and drives the absent classification (`ledPin = LOW`,
`disablePin = HIGH`); if all measurements are nonzero, the outputs are OK
(`ledPin = HIGH`, `disablePin = LOW`) exactly when the average frequency
`100000 / totalDuration` kHz (that is, `100 kHz / mean duration in µs`) lies
in the inclusive 12–18 kHz band, and not-OK otherwise. -/
theorem claim7_sync_classifier (pulses : List Nat)
    (_hlen : pulses.length = Ino.PULSE_COUNT) :
    (0 ∈ pulses → Ino.freqBlock pulses = (LOW, HIGH)) ∧
    ((∀ d ∈ pulses, d ≠ 0) →
      Ino.freqBlock pulses =
        if Ino.freqOk pulses.sum then (HIGH, LOW) else (LOW, HIGH)) := by
  constructor
  · intro h0
    have h2 := Ino.freqAccum_of_zero pulses 0 h0
    simp [Ino.freqBlock, h2]
  · intro hnz
    have h2 := Ino.freqAccum_of_no_zero pulses 0 hnz
    simp [Ino.freqBlock, h2]

/-- C7 witness: a run of 100 measurements of 70 µs each (≈ 14.3 kHz) is
classified OK; the outputs become LED on, amplifier enabled. -/
theorem claim7_witness :
    Ino.freqBlock (List.replicate 100 70) = (HIGH, LOW) := by
  have h := (claim7_sync_classifier (List.replicate 100 70) (by decide)).2 (by decide)
  have hs : (List.replicate 100 70).sum = 7000 := by decide
  have hok : Ino.freqOk (List.replicate 100 70).sum := by
    rw [hs]; unfold Ino.freqOk; norm_num
  rw [h, if_pos hok]

theorem P0.handleInput_not_accept (s0 sb isShift : Bool) (inp : P0.digitalInput)
    (raw : Bool) (now : Nat) (h : ¬ P0.accept inp raw now) :
    P0.handleInput s0 sb isShift inp raw now = (inp, sb, []) := by
  simp [P0.handleInput, if_neg h]

theorem P0.freqRun_accum :
    ∀ (ts : List Nat) (s : P0.FreqState), s.sCounter + ts.length ≤ P0.samples →
      P0.freqRun s ts =
        ({ s with periodSum := s.periodSum + ts.sum,
                  sCounter := s.sCounter + ts.length }, []) := by
  intro ts
  induction ts with
  | nil => intro s h; simp [P0.freqRun]
  | cons p rest ih =>
    intro s h
    simp only [List.length_cons] at h
    have hle : ¬ P0.samples < s.sCounter + 1 := by omega
    have hstep : P0.freqBlock s p =
        ({ s with periodSum := s.periodSum + p, sCounter := s.sCounter + 1 }, []) := by
      unfold P0.freqBlock
      rw [if_neg hle]
    have hrec := ih { s with periodSum := s.periodSum + p, sCounter := s.sCounter + 1 }
      (by simp; omega)
    simp only [P0.freqRun, hstep, hrec]
    simp [List.sum_cons, List.length_cons, Nat.add_assoc]
    omega

theorem P0.freqRun_append (l1 l2 : List Nat) :
    ∀ s, P0.freqRun s (l1 ++ l2) =
      ((P0.freqRun (P0.freqRun s l1).1 l2).1,
        (P0.freqRun s l1).2 ++ (P0.freqRun (P0.freqRun s l1).1 l2).2) := by
  induction l1 with
  | nil => intro s; simp [P0.freqRun]
  | cons q rest ih =>
    intro s
    simp only [List.cons_append, P0.freqRun, List.append_eq]
    rw [ih]
    simp [List.append_assoc]

theorem P0.freqBlock_decide (s : P0.FreqState) (p : Nat)
    (h : P0.samples < s.sCounter + 1) :
    P0.freqBlock s p =
      (⟨0, 0, decide (P0.DEFAULT_FREQ < (s.periodSum + p) / (s.sCounter + 1)),
        if decide (P0.DEFAULT_FREQ < (s.periodSum + p) / (s.sCounter + 1)) ≠ s.prevEnState
        then decide (P0.DEFAULT_FREQ < (s.periodSum + p) / (s.sCounter + 1))
        else s.prevEnState⟩,
       if decide (P0.DEFAULT_FREQ < (s.periodSum + p) / (s.sCounter + 1)) ≠ s.prevEnState
       then [(!decide (P0.DEFAULT_FREQ < (s.periodSum + p) / (s.sCounter + 1)),
              decide (P0.DEFAULT_FREQ < (s.periodSum + p) / (s.sCounter + 1)))]
       else []) := by
  unfold P0.freqBlock
  rw [if_pos h]
  by_cases hch : decide (P0.DEFAULT_FREQ < (s.periodSum + p) / (s.sCounter + 1)) ≠ s.prevEnState
  · rw [if_pos hch, if_pos hch, if_pos hch]
  · rw [if_neg hch, if_neg hch, if_neg hch]

/-- C8 (amended).  The threshold-check sync monitor of `part_000`: while the
incremented counter has not exceeded `samples = 100` the call only
accumulates (no decision, no output writes); the decision fires when the
incremented counter exceeds 100, i.e. on the 101st sample of a cycle, at
which point the accumulator is reset, the classification becomes enabled
exactly when the mean period exceeds `DEFAULT_FREQ = 55`, and the two output
lines are written exactly when the classification differs from the previous
cycle's.  Hence a full decision cycle from a reset accumulator consumes
exactly 101 samples, not 100. -/
theorem claim8_threshold_monitor :
    (∀ (s : P0.FreqState) (p : Nat), s.sCounter + 1 ≤ P0.samples →
      P0.freqBlock s p =
        ({ s with periodSum := s.periodSum + p, sCounter := s.sCounter + 1 }, [])) ∧
    (∀ (s : P0.FreqState) (p : Nat), P0.samples < s.sCounter + 1 →
      (P0.freqBlock s p).1.periodSum = 0 ∧
      (P0.freqBlock s p).1.sCounter = 0 ∧
      (P0.freqBlock s p).1.enableState =
        decide (P0.DEFAULT_FREQ < (s.periodSum + p) / (s.sCounter + 1)) ∧
      (P0.freqBlock s p).2 =
        (if decide (P0.DEFAULT_FREQ < (s.periodSum + p) / (s.sCounter + 1)) ≠ s.prevEnState
         then [(!decide (P0.DEFAULT_FREQ < (s.periodSum + p) / (s.sCounter + 1)),
                decide (P0.DEFAULT_FREQ < (s.periodSum + p) / (s.sCounter + 1)))]
         else [])) ∧
    (∀ (l : List Nat) (d : Nat) (s0 : P0.FreqState),
      s0.periodSum = 0 → s0.sCounter = 0 → l.length = P0.samples →
      P0.freqRun s0 (l ++ [d]) =
        (⟨0, 0, decide (P0.DEFAULT_FREQ < (l.sum + d) / (P0.samples + 1)),
          if decide (P0.DEFAULT_FREQ < (l.sum + d) / (P0.samples + 1)) ≠ s0.prevEnState
          then decide (P0.DEFAULT_FREQ < (l.sum + d) / (P0.samples + 1))
          else s0.prevEnState⟩,
         if decide (P0.DEFAULT_FREQ < (l.sum + d) / (P0.samples + 1)) ≠ s0.prevEnState
         then [(!decide (P0.DEFAULT_FREQ < (l.sum + d) / (P0.samples + 1)),
                decide (P0.DEFAULT_FREQ < (l.sum + d) / (P0.samples + 1)))]
         else [])) := by
  refine ⟨?_, ?_, ?_⟩
  · intro s p h
    unfold P0.freqBlock
    rw [if_neg (by omega)]
  · intro s p h
    rw [P0.freqBlock_decide s p h]
    simp
  · intro l d s0 h1 h2 h3
    have haccum := P0.freqRun_accum l s0 (by omega)
    rw [P0.freqRun_append l [d] s0, haccum]
    have hdec := P0.freqBlock_decide
      { s0 with periodSum := s0.periodSum + l.sum, sCounter := s0.sCounter + l.length }
      d (by simp [h2, h3])
    simp only [P0.freqRun, hdec]
    simp [h1, h2, h3]

/-- C8 witness: a fresh cycle of 100 samples of 1 µs followed by one more
sample: the decision fires on that 101st sample, the mean 101/101 = 1 does
not exceed 55, the accumulator resets and no output write occurs (the
classification was already disabled). -/
theorem claim8_witness :
    P0.freqRun P0.freqInit (List.replicate 100 1 ++ [1]) =
      (⟨0, 0, false, false⟩, []) := by
  have h := claim8_threshold_monitor.2.2 (List.replicate 100 1) 1 P0.freqInit
    (by decide) (by decide) (by decide)
  rw [h]
  decide

/-- C8 counterexample: the claim says the accumulator is reset after a
decision cycle of exactly `N = 100` samples, but after 100 samples from the
reset state no decision has fired (`sCounter > samples` is still false): the
accumulator holds `periodSum = 100, sCounter = 100` and nothing was written.
The decision only happens on the 101st sample. -/
theorem claim8_counterexample :
    P0.freqRun P0.freqInit (List.replicate 100 1) =
      (⟨100, 100, false, false⟩, []) := by
  decide

/-- C9 (amended).  Both keyboard variants initialize every input's confirmed
state in `setup` from an actual `digitalRead` of its pin, so a first tick
that samples the same level confirms no transition for any input.  The
gamepad variant `part_002` instead zero-initializes `states[]` — the
constant 0, which equals the packed resting level, so inputs at electrical
rest still produce no first-tick transition (first conjuncts of the final
clause), but the state is not obtained from a pin read. -/
theorem claim9_startup_reads_pins :
    (∀ readPin : Nat → Bool, ∀ e ∈ Ino.setup readPin, e.state = readPin e.pin) ∧
    (∀ (readPin : Nat → Bool) (shiftState sb : Bool) (now : Nat),
      ∀ e ∈ Ino.setup readPin,
        Ino.handleButtonsBody shiftState sb e (readPin e.pin) now = (e, sb, [])) ∧
    (∀ (readPin : Nat → Bool) (now0 : Nat),
      ∀ e ∈ P0.setup readPin now0, e.state = readPin e.pin) ∧
    (∀ (readPin : Nat → Bool) (now0 : Nat) (s0 sb isShift : Bool) (now : Nat),
      ∀ e ∈ P0.setup readPin now0,
        P0.handleInput s0 sb isShift e (readPin e.pin) now = (e, sb, [])) ∧
    (∀ j : Fin 26, P2.init.states j = 0) ∧
    (P2.loopStep P2.init (U32 - 1) 9).1.states = P2.init.states ∧
    (P2.loopStep P2.init (U32 - 1) 9).2 = [] := by
  have hino : ∀ readPin : Nat → Bool, ∀ e ∈ Ino.setup readPin,
      e.state = readPin e.pin := by
    intro readPin e he
    obtain ⟨x, hx, rfl⟩ := List.mem_map.mp he
    rfl
  have hp0 : ∀ (readPin : Nat → Bool) (now0 : Nat), ∀ e ∈ P0.setup readPin now0,
      e.state = readPin e.pin := by
    intro readPin now0 e he
    obtain ⟨x, hx, rfl⟩ := List.mem_map.mp he
    rfl
  refine ⟨hino, ?_, hp0, ?_, by decide, by decide, by decide⟩
  · intro readPin shiftState sb now e he
    exact Ino.handleButtonsBody_not_accept shiftState sb e (readPin e.pin) now
      (fun hc => hc.1 (hino readPin e he))
  · intro readPin now0 s0 sb isShift now e he
    exact P0.handleInput_not_accept s0 sb isShift e (readPin e.pin) now
      (fun hc => hc.2 (hp0 readPin now0 e he).symm)

/-- C9 witness: the first table entry under an all-`HIGH` power-up read:
its confirmed state equals the pin read and the first tick leaves it
untouched with no emission. -/
theorem claim9_witness :
    Ino.handleButtonsBody HIGH false ⟨6, 0, HIGH, 49, 49⟩ ((fun _ => HIGH) 6) 1000 =
      (⟨6, 0, HIGH, 49, 49⟩, false, []) :=
  claim9_startup_reads_pins.2.1 (fun _ => HIGH) HIGH false 1000
    ⟨6, 0, HIGH, 49, 49⟩ (by decide)

/-- C9 counterexample: in `part_002` the confirmed states are initialized to
the constant 0, not from a pin read.  With button 0's pin (GPIO 8) held low
(pressed) at power-up, the actual read is 1 but the initial confirmed state
is 0, and the very first tick (9 ms after boot) confirms a transition and
transmits a report — the claim's universally quantified initialization
property fails for this variant. -/
theorem claim9_counterexample :
    Nat.testBit (P2.gpioNowOf (U32 - 1 - 2 ^ 8)) (P2.buttons 0) = true ∧
    P2.init.states 0 = 0 ∧
    (P2.loopStep P2.init (U32 - 1 - 2 ^ 8) 9).1.states 0 = 1 ∧
    (P2.loopStep P2.init (U32 - 1 - 2 ^ 8) 9).2 = [((0 : Fin 2), 1)] := by
  decide

theorem P2.packAux_testBit (st : Fin 26 → Nat) (g : Fin 2) :
    ∀ (l : List (Fin 13)) (m k : Nat),
      (l.foldl (fun m j => m ||| (st (P2.idx g j) <<< j.val)) m).testBit k =
        (m.testBit k || l.any fun j => ((st (P2.idx g j)) <<< j.val).testBit k) := by
  intro l
  induction l with
  | nil => intro m k; simp
  | cons j rest ih =>
    intro m k
    simp only [List.foldl_cons, List.any_cons]
    rw [ih]
    simp [Nat.testBit_or, Bool.or_assoc]

theorem P2.shiftLeft_testBit_of_le_one (x j k : Nat) (hx : x ≤ 1) :
    (x <<< j).testBit k = (decide (j = k) && decide (x = 1)) := by
  interval_cases x
  · simp [Nat.zero_shiftLeft]
  · simp [Nat.one_shiftLeft, Nat.testBit_two_pow]

theorem P2.pack_testBit_ge (st : Fin 26 → Nat) (hst : ∀ j, st j ≤ 1) (g : Fin 2)
    (k : Nat) (hk : 13 ≤ k) : (P2.pack st g).testBit k = false := by
  unfold P2.pack
  rw [P2.packAux_testBit]
  simp only [Nat.zero_testBit, Bool.false_or]
  rw [List.any_eq_false]
  intro j hj
  rw [P2.shiftLeft_testBit_of_le_one _ _ _ (hst _)]
  have : j.val ≠ k := by have := j.isLt; omega
  simp [this]

theorem P2.pack_testBit_lt (st : Fin 26 → Nat) (hst : ∀ j, st j ≤ 1) (g : Fin 2)
    (j : Fin 13) : (P2.pack st g).testBit j.val = decide (st (P2.idx g j) = 1) := by
  unfold P2.pack
  rw [P2.packAux_testBit]
  simp only [Nat.zero_testBit, Bool.false_or]
  by_cases hsj : st (P2.idx g j) = 1
  · rw [List.any_eq_true.mpr ⟨j, List.mem_finRange j, ?_⟩]
    · simp [hsj]
    · rw [P2.shiftLeft_testBit_of_le_one _ _ _ (hst _)]
      simp [hsj]
  · rw [List.any_eq_false.mpr ?_]
    · simp [hsj]
    · intro i hi
      rw [P2.shiftLeft_testBit_of_le_one _ _ _ (hst _)]
      by_cases hij : i = j
      · subst hij; simp [hsj]
      · have : i.val ≠ j.val := fun h => hij (Fin.val_injective h)
        simp [this]

theorem P2.pack_lt (st : Fin 26 → Nat) (hst : ∀ j, st j ≤ 1) (g : Fin 2) :
    P2.pack st g < 2 ^ 13 := by
  unfold P2.pack
  have hgen : ∀ (l : List (Fin 13)) (m : Nat), m < 2 ^ 13 →
      (l.foldl (fun m j => m ||| (st (P2.idx g j) <<< j.val)) m) < 2 ^ 13 := by
    intro l
    induction l with
    | nil => intro m hm; exact hm
    | cons j rest ih =>
      intro m hm
      refine ih _ (Nat.or_lt_two_pow hm ?_)
      rw [Nat.shiftLeft_eq]
      calc st (P2.idx g j) * 2 ^ j.val ≤ 1 * 2 ^ j.val :=
            Nat.mul_le_mul_right _ (hst _)
        _ = 2 ^ j.val := Nat.one_mul _
        _ < 2 ^ 13 := Nat.pow_lt_pow_right (by omega) j.isLt
  exact hgen _ 0 (by norm_num)

theorem P2.buttonStep_cases (gpioNow timeNow : Nat) (s : P2.State) (i : Fin 26) :
    P2.buttonStep gpioNow timeNow s i = s ∨
    (P2.buttonStep gpioNow timeNow s i =
      { s with
          states := Function.update s.states i
            (if Nat.testBit gpioNow (P2.buttons i) then 1 else 0),
          timers := Function.update s.timers i timeNow,
          needToSend := Function.update s.needToSend (P2.grp i) true } ∧
      (if Nat.testBit gpioNow (P2.buttons i) then 1 else 0) ≠ s.states i) := by
  unfold P2.buttonStep
  by_cases ht : P2.DEBOUNCE_MS < sub32 timeNow (s.timers i)
  · rw [if_pos ht]
    dsimp only
    by_cases hc : (if Nat.testBit gpioNow (P2.buttons i) then (1 : Nat) else 0) ≠ s.states i
    · right
      rw [if_pos hc]
      exact ⟨rfl, hc⟩
    · left
      rw [if_neg hc]
  · left
    rw [if_neg ht]

theorem P2.buttonStep_inv (gpioNow timeNow : Nat) (s0 s' : P2.State) (i : Fin 26)
    (hInv : ∀ j, s'.states j ≠ s0.states j → s'.needToSend (P2.grp j) = true) :
    ∀ j, (P2.buttonStep gpioNow timeNow s' i).states j ≠ s0.states j →
      (P2.buttonStep gpioNow timeNow s' i).needToSend (P2.grp j) = true := by
  intro j hch
  rcases P2.buttonStep_cases gpioNow timeNow s' i with he | ⟨he, hne⟩
  · rw [he] at hch ⊢
    exact hInv j hch
  · rw [he] at hch ⊢
    by_cases hij : j = i
    · subst hij
      simp [Function.update_same]
    · have hst : s'.states j ≠ s0.states j := by
        simpa [Function.update_noteq hij] using hch
      have hflag := hInv j hst
      by_cases hg : P2.grp j = P2.grp i
      · show Function.update s'.needToSend (P2.grp i) true (P2.grp j) = true
        rw [hg, Function.update_same]
      · show Function.update s'.needToSend (P2.grp i) true (P2.grp j) = true
        rw [Function.update_noteq hg]
        exact hflag

theorem P2.foldl_inv (gpioNow timeNow : Nat) (s0 : P2.State) :
    ∀ (l : List (Fin 26)) (s' : P2.State),
      (∀ j, s'.states j ≠ s0.states j → s'.needToSend (P2.grp j) = true) →
      ∀ j, (l.foldl (P2.buttonStep gpioNow timeNow) s').states j ≠ s0.states j →
        (l.foldl (P2.buttonStep gpioNow timeNow) s').needToSend (P2.grp j) = true := by
  intro l
  induction l with
  | nil => intro s' h; exact h
  | cons i rest ih =>
    intro s' h
    exact ih _ (P2.buttonStep_inv gpioNow timeNow s0 s' i h)

theorem P2.buttonPhase_inv (gpioNow timeNow : Nat) (s : P2.State) :
    ∀ j, (P2.buttonPhase gpioNow timeNow s).states j ≠ s.states j →
      (P2.buttonPhase gpioNow timeNow s).needToSend (P2.grp j) = true := by
  unfold P2.buttonPhase
  exact P2.foldl_inv gpioNow timeNow s (List.finRange 26) s (fun _ h => absurd rfl h)

theorem P2.foldl_states_le (gpioNow timeNow : Nat) :
    ∀ (l : List (Fin 26)) (s : P2.State), (∀ j, s.states j ≤ 1) →
      ∀ j, (l.foldl (P2.buttonStep gpioNow timeNow) s).states j ≤ 1 := by
  intro l
  induction l with
  | nil => intro s h; exact h
  | cons i rest ih =>
    intro s h
    refine ih _ (fun j => ?_)
    rcases P2.buttonStep_cases gpioNow timeNow s i with he | ⟨he, hne⟩
    · rw [he]; exact h j
    · rw [he]
      by_cases hij : j = i
      · subst hij
        simp only [Function.update_same]
        split <;> omega
      · simp only [Function.update_noteq hij]
        exact h j

theorem P2.buttonPhase_states_le (gpioNow timeNow : Nat) (s : P2.State)
    (h : ∀ j, s.states j ≤ 1) :
    ∀ j, (P2.buttonPhase gpioNow timeNow s).states j ≤ 1 := by
  unfold P2.buttonPhase
  exact P2.foldl_states_le gpioNow timeNow (List.finRange 26) s h

theorem P2.foldl_report (gpioNow timeNow : Nat) :
    ∀ (l : List (Fin 26)) (s : P2.State),
      (l.foldl (P2.buttonStep gpioNow timeNow) s).report = s.report := by
  intro l
  induction l with
  | nil => intro s; rfl
  | cons i rest ih =>
    intro s
    rw [List.foldl_cons, ih]
    rcases P2.buttonStep_cases gpioNow timeNow s i with he | ⟨he, _⟩ <;> rw [he]

theorem P2.buttonPhase_report (gpioNow timeNow : Nat) (s : P2.State) :
    (P2.buttonPhase gpioNow timeNow s).report = s.report := by
  unfold P2.buttonPhase
  exact P2.foldl_report gpioNow timeNow (List.finRange 26) s

theorem P2.sendGroup_dirty (sb : P2.State) (g : Fin 2) (hd : sb.needToSend g = true) :
    P2.sendGroup sb g =
      ({ sb with report := Function.update sb.report g (P2.pack sb.states g),
                 needToSend := Function.update sb.needToSend g false },
        [(g, P2.pack sb.states g)]) := by
  unfold P2.sendGroup
  rw [if_pos hd]

theorem P2.sendGroup_clean (sb : P2.State) (g : Fin 2) (hd : sb.needToSend g = false) :
    P2.sendGroup sb g = (sb, []) := by
  unfold P2.sendGroup
  rw [if_neg (by rw [hd]; exact Bool.false_ne_true)]

theorem P2.sendPhase_spec (sb : P2.State) :
    (∀ g, (P2.sendPhase sb).1.report g =
        if sb.needToSend g then P2.pack sb.states g else sb.report g) ∧
    (∀ g, (P2.sendPhase sb).1.needToSend g = false) ∧
    (P2.sendPhase sb).1.states = sb.states ∧
    (P2.sendPhase sb).2 =
      (if sb.needToSend 0 then [((0 : Fin 2), P2.pack sb.states 0)] else []) ++
      (if sb.needToSend 1 then [((1 : Fin 2), P2.pack sb.states 1)] else []) := by
  have h01 : (0 : Fin 2) ≠ 1 := by decide
  have h10 : (1 : Fin 2) ≠ 0 := by decide
  by_cases h0 : sb.needToSend 0 <;> by_cases h1 : sb.needToSend 1
  · have e0 := P2.sendGroup_dirty sb 0 h0
    have hA1 : ({ sb with
        report := Function.update sb.report 0 (P2.pack sb.states 0),
        needToSend := Function.update sb.needToSend 0 false } : P2.State).needToSend 1
        = true := by
      show Function.update sb.needToSend 0 false 1 = true
      rw [Function.update_noteq h10]; exact h1
    have e1 := P2.sendGroup_dirty _ 1 hA1
    unfold P2.sendPhase
    rw [e0]
    dsimp only
    rw [e1]
    refine ⟨?_, ?_, rfl, by simp [h0, h1]⟩
    · intro g
      fin_cases g
      · show Function.update (Function.update sb.report 0 (P2.pack sb.states 0)) 1
            (P2.pack sb.states 1) 0 =
          if sb.needToSend 0 then P2.pack sb.states 0 else sb.report 0
        rw [Function.update_noteq h01, Function.update_same, if_pos h0]
      · show Function.update (Function.update sb.report 0 (P2.pack sb.states 0)) 1
            (P2.pack sb.states 1) 1 =
          if sb.needToSend 1 then P2.pack sb.states 1 else sb.report 1
        rw [Function.update_same, if_pos h1]
    · intro g
      fin_cases g
      · show Function.update (Function.update sb.needToSend 0 false) 1 false 0 = false
        rw [Function.update_noteq h01, Function.update_same]
      · show Function.update (Function.update sb.needToSend 0 false) 1 false 1 = false
        rw [Function.update_same]
  · have e0 := P2.sendGroup_dirty sb 0 h0
    have hA1 : ({ sb with
        report := Function.update sb.report 0 (P2.pack sb.states 0),
        needToSend := Function.update sb.needToSend 0 false } : P2.State).needToSend 1
        = false := by
      show Function.update sb.needToSend 0 false 1 = false
      rw [Function.update_noteq h10]
      exact Bool.not_eq_true _ ▸ h1
    have e1 := P2.sendGroup_clean _ 1 hA1
    unfold P2.sendPhase
    rw [e0]
    dsimp only
    rw [e1]
    refine ⟨?_, ?_, rfl, by simp [h0, h1]⟩
    · intro g
      fin_cases g
      · show Function.update sb.report 0 (P2.pack sb.states 0) 0 =
          if sb.needToSend 0 then P2.pack sb.states 0 else sb.report 0
        rw [Function.update_same, if_pos h0]
      · show Function.update sb.report 0 (P2.pack sb.states 0) 1 =
          if sb.needToSend 1 then P2.pack sb.states 1 else sb.report 1
        rw [Function.update_noteq h10, if_neg h1]
    · intro g
      fin_cases g
      · show Function.update sb.needToSend 0 false 0 = false
        rw [Function.update_same]
      · show Function.update sb.needToSend 0 false 1 = false
        rw [Function.update_noteq h10]
        exact Bool.not_eq_true _ ▸ h1
  · have e0 := P2.sendGroup_clean sb 0 (Bool.not_eq_true _ ▸ h0)
    have e1 := P2.sendGroup_dirty sb 1 h1
    unfold P2.sendPhase
    rw [e0]
    dsimp only
    rw [e1]
    refine ⟨?_, ?_, rfl, by simp [h0, h1]⟩
    · intro g
      fin_cases g
      · show Function.update sb.report 1 (P2.pack sb.states 1) 0 =
          if sb.needToSend 0 then P2.pack sb.states 0 else sb.report 0
        rw [Function.update_noteq h01, if_neg h0]
      · show Function.update sb.report 1 (P2.pack sb.states 1) 1 =
          if sb.needToSend 1 then P2.pack sb.states 1 else sb.report 1
        rw [Function.update_same, if_pos h1]
    · intro g
      fin_cases g
      · show Function.update sb.needToSend 1 false 0 = false
        rw [Function.update_noteq h01]
        exact Bool.not_eq_true _ ▸ h0
      · show Function.update sb.needToSend 1 false 1 = false
        rw [Function.update_same]
  · have e0 := P2.sendGroup_clean sb 0 (Bool.not_eq_true _ ▸ h0)
    have e1 := P2.sendGroup_clean sb 1 (Bool.not_eq_true _ ▸ h1)
    unfold P2.sendPhase
    rw [e0]
    dsimp only
    rw [e1]
    refine ⟨?_, ?_, rfl, by simp [h0, h1]⟩
    · intro g
      fin_cases g
      · show sb.report 0 =
          if sb.needToSend 0 then P2.pack sb.states 0 else sb.report 0
        rw [if_neg h0]
      · show sb.report 1 =
          if sb.needToSend 1 then P2.pack sb.states 1 else sb.report 1
        rw [if_neg h1]
    · intro g
      fin_cases g
      · exact Bool.not_eq_true _ ▸ h0
      · exact Bool.not_eq_true _ ▸ h1

theorem P2.sendPhase_mem (sb : P2.State) (g : Fin 2) (hg : sb.needToSend g = true) :
    (g, P2.pack sb.states g) ∈ (P2.sendPhase sb).2 := by
  obtain ⟨-, -, -, hev⟩ := P2.sendPhase_spec sb
  rw [hev]
  have hg01 : g = 0 ∨ g = 1 := by omega
  rcases hg01 with rfl | rfl
  · rw [if_pos hg]
    exact List.mem_append_left _ (List.mem_cons_self _ _)
  · rw [if_pos hg]
    exact List.mem_append_right _ (List.mem_cons_self _ _)

theorem P2.sendPhase_not_mem (sb : P2.State) (g : Fin 2) (hg : sb.needToSend g = false) :
    ∀ m, (g, m) ∉ (P2.sendPhase sb).2 := by
  obtain ⟨-, -, -, hev⟩ := P2.sendPhase_spec sb
  intro m hm
  rw [hev] at hm
  rcases List.mem_append.mp hm with h | h
  · by_cases h0 : sb.needToSend 0
    · rw [if_pos h0] at h
      have heq := List.mem_singleton.mp h
      have hg0 : g = 0 := congrArg Prod.fst heq
      rw [hg0] at hg
      rw [hg] at h0
      exact Bool.false_ne_true h0
    · rw [if_neg h0] at h
      exact (List.not_mem_nil _) h
  · by_cases h1 : sb.needToSend 1
    · rw [if_pos h1] at h
      have heq := List.mem_singleton.mp h
      have hg1 : g = 1 := congrArg Prod.fst heq
      rw [hg1] at hg
      rw [hg] at h1
      exact Bool.false_ne_true h1
    · rw [if_neg h1] at h
      exact (List.not_mem_nil _) h

/-- C6.  One `loop()` iteration of the gamepad variant, with `sb` the state
after the button phase: a confirmed transition of any input marks exactly its
own group dirty; every dirty group has its mask rebuilt by packing the
authoritative confirmed states immediately before transmission, is present in
the transmitted reports, and its dirty flag is cleared right after the send;
a clean group's stored report mask is untouched and nothing is transmitted
for it; the packed mask never carries a bit at or above position 13; and two
packed masks can differ at bit `k` of group `g` only if the confirmed state
of the input at position `k` of `g` changed. -/
theorem claim6_gamepad_report_isolation (s sb : P2.State) (gpio t : Nat)
    (hGood : ∀ j, s.states j ≤ 1)
    (hsb : sb = P2.buttonPhase (P2.gpioNowOf gpio) (t % U32) s) :
    P2.loopStep s gpio t = P2.sendPhase sb ∧
    (∀ j, sb.states j ≠ s.states j → sb.needToSend (P2.grp j) = true) ∧
    (∀ g, sb.needToSend g = true →
      (g, P2.pack sb.states g) ∈ (P2.sendPhase sb).2 ∧
      (P2.sendPhase sb).1.report g = P2.pack sb.states g ∧
      (P2.sendPhase sb).1.needToSend g = false) ∧
    (∀ g, sb.needToSend g = false →
      (P2.sendPhase sb).1.report g = s.report g ∧
      (∀ m, (g, m) ∉ (P2.sendPhase sb).2) ∧
      (P2.sendPhase sb).1.needToSend g = false) ∧
    (∀ (g : Fin 2) (k : Nat), 13 ≤ k → (P2.pack sb.states g).testBit k = false) ∧
    (∀ (g : Fin 2) (j : Fin 13),
      (P2.pack sb.states g).testBit j.val ≠ (P2.pack s.states g).testBit j.val →
      sb.states (P2.idx g j) ≠ s.states (P2.idx g j)) := by
  have hGoodSb : ∀ j, sb.states j ≤ 1 := by
    rw [hsb]; exact P2.buttonPhase_states_le _ _ s hGood
  have hrep : sb.report = s.report := by
    rw [hsb]; exact P2.buttonPhase_report _ _ s
  obtain ⟨hr, hn, hst, hev⟩ := P2.sendPhase_spec sb
  refine ⟨?_, ?_, ?_, ?_, ?_, ?_⟩
  · rw [hsb]; rfl
  · rw [hsb]; exact P2.buttonPhase_inv _ _ s
  · intro g hg
    refine ⟨P2.sendPhase_mem sb g hg, ?_, hn g⟩
    rw [hr g, if_pos hg]
  · intro g hg
    refine ⟨?_, P2.sendPhase_not_mem sb g hg, hn g⟩
    rw [hr g, if_neg (by rw [hg]; exact Bool.false_ne_true), congrFun hrep g]
  · intro g k hk
    exact P2.pack_testBit_ge sb.states hGoodSb g k hk
  · intro g j hbit heq
    apply hbit
    rw [P2.pack_testBit_lt sb.states hGoodSb g j,
      P2.pack_testBit_lt s.states hGood g j, heq]

/-- C6 witness: from the power-on state, one iteration with button 0's pin
(GPIO 8) held marks group A dirty and the transmitted report for group A is
exactly the pack of the confirmed states after the button phase. -/
theorem claim6_witness :
    ((0 : Fin 2),
      P2.pack (P2.buttonPhase (P2.gpioNowOf (U32 - 1 - 2 ^ 8)) (9 % U32) P2.init).states 0) ∈
      (P2.sendPhase (P2.buttonPhase (P2.gpioNowOf (U32 - 1 - 2 ^ 8)) (9 % U32) P2.init)).2 :=
  ((claim6_gamepad_report_isolation P2.init
      (P2.buttonPhase (P2.gpioNowOf (U32 - 1 - 2 ^ 8)) (9 % U32) P2.init)
      (U32 - 1 - 2 ^ 8) 9 (fun _ => Nat.zero_le 1) rfl).2.2.1 0 (by decide)).1

theorem P2.run_masks (trace : List (Nat × Nat)) :
    ∀ s : P2.State, (∀ j, s.states j ≤ 1) →
      (∀ j, (P2.run s trace).1.states j ≤ 1) ∧
      ∀ e ∈ (P2.run s trace).2, e.2 < 2 ^ 13 := by
  induction trace with
  | nil =>
    intro s hs
    refine ⟨hs, ?_⟩
    intro e he
    simp [P2.run] at he
  | cons p rest ih =>
    intro s hs
    obtain ⟨g, t⟩ := p
    have hGoodSb := P2.buttonPhase_states_le (P2.gpioNowOf g) (t % U32) s hs
    obtain ⟨hr, hn, hst, hev⟩ :=
      P2.sendPhase_spec (P2.buttonPhase (P2.gpioNowOf g) (t % U32) s)
    have hloop : P2.loopStep s g t =
        P2.sendPhase (P2.buttonPhase (P2.gpioNowOf g) (t % U32) s) := rfl
    have hGood1 : ∀ j, (P2.loopStep s g t).1.states j ≤ 1 := by
      intro j
      rw [hloop, hst]
      exact hGoodSb j
    have hmem : ∀ e ∈ (P2.loopStep s g t).2, e.2 < 2 ^ 13 := by
      intro e he
      rw [hloop, hev] at he
      rcases List.mem_append.mp he with h | h
      · by_cases h0 : (P2.buttonPhase (P2.gpioNowOf g) (t % U32) s).needToSend 0
        · rw [if_pos h0] at h
          have heq := List.mem_singleton.mp h
          have h2 : e.2 = P2.pack (P2.buttonPhase (P2.gpioNowOf g) (t % U32) s).states 0 :=
            congrArg Prod.snd heq
          rw [h2]
          exact P2.pack_lt _ hGoodSb 0
        · rw [if_neg h0] at h
          exact absurd h (List.not_mem_nil _)
      · by_cases h1 : (P2.buttonPhase (P2.gpioNowOf g) (t % U32) s).needToSend 1
        · rw [if_pos h1] at h
          have heq := List.mem_singleton.mp h
          have h2 : e.2 = P2.pack (P2.buttonPhase (P2.gpioNowOf g) (t % U32) s).states 1 :=
            congrArg Prod.snd heq
          rw [h2]
          exact P2.pack_lt _ hGoodSb 1
        · rw [if_neg h1] at h
          exact absurd h (List.not_mem_nil _)
    have hrec := ih (P2.loopStep s g t).1 hGood1
    constructor
    · intro j
      have := hrec.1 j
      simpa [P2.run] using this
    · intro e he
      simp only [P2.run] at he
      rcases List.mem_append.mp he with h | h
      · exact hmem e h
      · exact hrec.2 e h

/-- C10.  In the gamepad variant, every report transmitted along any run of
`loop()` from the power-on state is the pack of thirteen 0/1 confirmed
states into bit positions 0–12, so its mask is below `2^13` and bits 13–31
(indeed all bits at or above 13) are zero. -/
theorem claim10_sent_masks_13_bits :
    ∀ (trace : List (Nat × Nat)) (e : Fin 2 × Nat),
      e ∈ (P2.run P2.init trace).2 →
        e.2 < 2 ^ 13 ∧ ∀ k, 13 ≤ k → e.2.testBit k = false := by
  intro trace e he
  have h := (P2.run_masks trace P2.init (fun _ => Nat.zero_le 1)).2 e he
  refine ⟨h, fun k hk => Nat.testBit_lt_two_pow ?_⟩
  exact lt_of_lt_of_le h (Nat.pow_le_pow_right (by omega) hk)

/-- C10 witness: the single report generated by a first tick with button 0
held has mask 1, which is below `2^13` with all bits at or above 13 clear. -/
theorem claim10_witness :
    (1 : Nat) < 2 ^ 13 ∧ ∀ k, 13 ≤ k → Nat.testBit 1 k = false :=
  claim10_sent_masks_13_bits [(U32 - 1 - 2 ^ 8, 9)] ((0 : Fin 2), 1) (by decide)

/-- C5 counterexample: in `part_000` the shift input is `inputs[0]`
(P1 COIN, code '5' = 53); on its confirmed released-edge with `startBlock`
latched the code emits a bare `release 53` — neither the claimed
press+release pair (tap case) nor the claimed silence (shifted-action
case). -/
theorem claim5_counterexample :
    P0.inputs.getD 0 ⟨0, HIGH, 0, 0, 0⟩ = ⟨4, HIGH, 0, 53, 53⟩ ∧
    P0.handleInput HIGH true true ⟨4, LOW, 0, 53, 53⟩ HIGH 41 =
      (⟨4, HIGH, 41, 53, 53⟩, false, [KeyEvent.release 53]) := by
  decide
